import Mathlib

/-!
Verification of the lease-manager core (src/app.py and src/app_gsheets.py):
calendar-month arithmetic, the id / contract-number allocators, the query and
expiry-window filters, the status classifier, the load-time sort order, and
the edit flows, shallowly embedded in Lean.  DataFrame columns are embedded
as lists; a cell that pandas holds as NaN/NA is an `Option` `none`.
-/

namespace LeaseMgr

/-- Gregorian leap year, as Python's calendar.isleap (used by
dateutil.relativedelta when clamping the day of month). -/
def isLeap (y : Int) : Bool :=
  y % 4 == 0 && (y % 100 != 0 || y % 400 == 0)

/-- Days in month `m` (1..12) of year `y`, as calendar.monthrange(y, m)[1]. -/
def daysInMonth (y : Int) (m : Nat) : Nat :=
  if m == 2 then (if isLeap y then 29 else 28)
  else if m == 4 || m == 6 || m == 9 || m == 11 then 30
  else 31

/-- A calendar date, as Python datetime.date (year, month, day). -/
structure Date where
  year : Int
  month : Nat
  day : Nat
deriving DecidableEq, Repr

/-- The triple is a real calendar date. -/
def Date.Valid (d : Date) : Prop :=
  1 ≤ d.month ∧ d.month ≤ 12 ∧ 1 ≤ d.day ∧ d.day ≤ daysInMonth d.year d.month

instance (d : Date) : Decidable d.Valid := by
  unfold Date.Valid; infer_instance

/-- calc_end_date of app.py:79 / app_gsheets.py:137:
`start + relativedelta(months=+int(months))`.  relativedelta advances the
month index (year*12 + month-1) by `months` and clamps the day to the length
of the target month. -/
def calc_end_date (start : Date) (months : Int) : Date :=
  let idx : Int := start.year * 12 + (start.month : Int) - 1 + months
  let y : Int := idx / 12
  let m : Nat := (idx % 12).toNat + 1
  ⟨y, m, min start.day (daysInMonth y m)⟩

/-- Largest element of a list of integers, head-seeded as pandas
Series.max over a nonempty column (the `[]` case is never used). -/
def listMax : List Int → Int
  | [] => 0
  | x :: xs => xs.foldl max x

/-- next_id of app.py:74 / app_gsheets.py:131 applied to the id column:
1 on an empty table, else max of the column after to_numeric coercion with
NaN filled as 0, plus 1.  `none` stands for a missing/non-numeric id. -/
def next_id (ids : List (Option Int)) : Int :=
  if ids.isEmpty then 1
  else listMax (ids.map (fun o => o.getD 0)) + 1

/-- Largest element of a nonempty list of naturals (max(seqs) of
next_contract_no; the `[]` case is never used). -/
def listMaxNat : List Nat → Nat
  | [] => 0
  | x :: xs => xs.foldl max x

/-- Zero-pad a decimal string on the left to width `w`, as Python's
format spec `0{w}d` applied to the printed number. -/
def pad (w : Nat) (s : String) : String :=
  String.mk (List.replicate (w - s.length) '0') ++ s

/-- `f"{start:%Y%m}"` of app_gsheets.py:217: four-digit year then two-digit
month (date years are 1..9999, so `toNat` is exact). -/
def yyyymmOf (d : Date) : String :=
  pad 4 (toString d.year.toNat) ++ pad 2 (toString d.month)

/-- int() on a string of decimal digits. -/
def digitsToNat (cs : List Char) : Nat :=
  cs.foldl (fun a c => a * 10 + (c.toNat - '0'.toNat)) 0

/-- Drop the expected leading characters: `some rest` when the second list
starts with the first, else `none`. -/
def stripPre : List Char → List Char → Option (List Char)
  | [], rest => some rest
  | _ :: _, [] => none
  | p :: ps, c :: cs => if c = p then stripPre ps cs else none

/-- The regex `^bucket-(\d+)$` of app_gsheets.py:221 applied to one cell:
`some n` when `v` is exactly `bucket ++ "-" ++ ds` for a nonempty string of
(ASCII) digits `ds` with int value `n`, else `none`. -/
def matchSeq (bucket : String) (v : String) : Option Nat :=
  match stripPre (bucket.toList ++ ['-']) v.toList with
  | none => none
  | some rest =>
    if !rest.isEmpty && rest.all Char.isDigit then some (digitsToNat rest) else none

/-- next_contract_no of app_gsheets.py:215 applied to the contract_no column
(`none` for a missing cell, read as "" by fillna): bucket is the YYYYMM of
the start date; collect the sequence numbers of the cells matching
`^bucket-(\d+)$`; the next sequence is max+1, or 1 when none match; render it
zero-padded to width 3. -/
def next_contract_no (col : List (Option String)) (start : Date) : String :=
  let bucket := yyyymmOf start
  let seqs := col.filterMap (fun v => matchSeq bucket (v.getD ""))
  let nextSeq := if seqs.isEmpty then 1 else listMaxNat seqs + 1
  bucket ++ "-" ++ pad 3 (toString nextSeq)

/-- style_status of app_gsheets.py:191 (app.py:125 is the same function
without the cancelled flag, i.e. the `false` branches below). -/
def style_status (days_left : Option Int) (cancelled : Bool) : String :=
  if cancelled then "❌ ยกเลิกแล้ว"
  else
    match days_left with
    | none => "-"
    | some d =>
      if d < 0 then "หมดอายุมาแล้ว " ++ toString (-d) ++ " วัน"
      else if d ≤ 15 then "⚠️ ใกล้หมดอายุ (≤15 วัน) - เหลือ " ++ toString d ++ " วัน"
      else if d ≤ 30 then "⏰ เตือนล่วงหน้า (≤30 วัน) - เหลือ " ++ toString d ++ " วัน"
      else "เหลือ " ++ toString d ++ " วัน"

/-- Token of the regular-expression fragment the query strings generate: a
literal character or the any-character metacharacter '.'.
`Series.str.contains(q)` treats `q` as a regular expression (regex=True is
the pandas default); this embedding covers the fragment of queries built
from literal characters and '.'. -/
inductive RTok
  | lit (c : Char)
  | dot
deriving DecidableEq, Repr

/-- Compile a query string of the fragment into tokens: '.' becomes the
any-character token, every other character a literal.  This is faithful to
Python re only for queries whose characters are literals or '.'; every
theorem about the filters that goes through compileQ restricts the query to
that fragment through an explicit hypothesis (isRegexMeta below). -/
def compileQ (q : String) : List RTok :=
  q.toList.map (fun c => if c = '.' then RTok.dot else RTok.lit c)

/-- The characters the Python re module treats as special (metacharacters):
dot, caret, dollar, star, plus, question mark, braces, brackets,
parentheses, backslash and pipe.  A pattern free of them is a literal
regex, whose re.search is exactly substring search. -/
def isRegexMeta (c : Char) : Bool :=
  c == '.' || c == '^' || c == '$' || c == '*' || c == '+' || c == '?'
    || c == '\x7b' || c == '\x7d' || c == '[' || c == ']'
    || c == '(' || c == ')' || c == '\\' || c == '|'

/-- One token against one character. -/
def tokMatch : RTok → Char → Bool
  | RTok.lit c, a => a == c
  | RTok.dot, _ => true

/-- Match the whole pattern starting at the head of the text. -/
def rmatchHere : List RTok → List Char → Bool
  | [], _ => true
  | _ :: _, [] => false
  | t :: ts, c :: cs => tokMatch t c && rmatchHere ts cs

/-- re.search: the pattern matches at some position of the text. -/
def rsearch (p : List RTok) : List Char → Bool
  | [] => rmatchHere p []
  | c :: cs => rmatchHere p (c :: cs) || rsearch p cs

/-- Python str.lower per character (ASCII fragment of the embedding). -/
def lowerChars (s : String) : List Char :=
  s.toList.map Char.toLower

/-- Lowercased copy of a string. -/
def strLower (s : String) : String :=
  String.mk (lowerChars s)

/-- Python str.strip(): drop leading and trailing whitespace (ASCII
whitespace fragment). -/
def pyStrip (s : String) : String :=
  String.mk (((s.toList.dropWhile Char.isWhitespace).reverse.dropWhile
    Char.isWhitespace).reverse)

/-- Literal-only pattern matched at the head of the text (helper for the
claim-side substring notion). -/
def litHere : List Char → List Char → Bool
  | [], _ => true
  | _ :: _, [] => false
  | p :: ps, c :: cs => (c == p) && litHere ps cs

/-- Follows the spec's words for C6: the needle occurs as a contiguous
substring of the haystack. -/
def isSubstr (p : List Char) : List Char → Bool
  | [] => litHere p []
  | c :: cs => litHere p (c :: cs) || isSubstr p cs

/-- One row of the local-file variant's table (app.py COLUMNS); a cell that
pandas holds as NaN is `none`. -/
structure Rec where
  id : Option Int
  shop_name : Option String
  contact_name : Option String
  phone : Option String
  start_date : Option Date
  months : Option Int
  end_date : Option Date
deriving DecidableEq, Repr

/-- One field's test in the mask of app.py:94: fillna("") . str.lower .
str.contains(pattern) with the already-lowercased pattern. -/
def fieldMatch (p : List RTok) (v : Option String) : Bool :=
  rsearch p (lowerChars (v.getD ""))

/-- The mask of filter_by_query (app.py:94): shop_name, contact_name or
phone matches. -/
def recMatches (p : List RTok) (r : Rec) : Bool :=
  fieldMatch p r.shop_name || fieldMatch p r.contact_name || fieldMatch p r.phone

/-- filter_by_query of app.py:90: empty q returns the table unchanged, else
filter by the mask built from q.strip().lower(). -/
def filter_by_query (df : List Rec) (q : String) : List Rec :=
  if q = "" then df
  else df.filter (recMatches (compileQ (strLower (pyStrip q))))

/-- One row of the Google-Sheets variant's table (app_gsheets.py COLUMNS).
After load_data, cancelled is a real boolean, text columns are nullable
strings. -/
structure GRec where
  id : Option Int
  contract_no : Option String
  shop_name : Option String
  contact_name : Option String
  phone : Option String
  start_date : Option Date
  months : Option Int
  end_date : Option Date
  cancelled : Bool
deriving DecidableEq, Repr

/-- _contains of app_gsheets.py:151: str.contains(q, case=False, na=False) —
a null cell never matches, case-insensitivity is modelled by lowering both
sides (ASCII fragment). -/
def gFieldMatch (q : String) (v : Option String) : Bool :=
  match v with
  | none => false
  | some s => rsearch (compileQ (strLower q)) (lowerChars s)

/-- The mask of filter_by_query (app_gsheets.py:160): contract_no,
shop_name, contact_name or phone matches. -/
def gMatches (q : String) (r : GRec) : Bool :=
  gFieldMatch q r.contract_no || gFieldMatch q r.shop_name
    || gFieldMatch q r.contact_name || gFieldMatch q r.phone

/-- filter_by_query of app_gsheets.py:156: empty q returns the table
unchanged, else filter by the mask built from the stripped q. -/
def filter_by_query_g (df : List GRec) (q : String) : List GRec :=
  if q = "" then df
  else df.filter (gMatches (pyStrip q))

/-- Days of year `y` strictly before month `m` (m in 1..12). -/
def daysBeforeMonth (y : Int) : Nat → Nat
  | 0 => 0
  | n + 1 => daysBeforeMonth y n + (if n = 0 then 0 else daysInMonth y n)

/-- Python date.toordinal: day count from 0001-01-01 (which is day 1).
Date subtraction is (a - b).days = toOrdinal a - toOrdinal b. -/
def toOrdinal (d : Date) : Int :=
  365 * (d.year - 1) + (d.year - 1) / 4 - (d.year - 1) / 100 + (d.year - 1) / 400
    + (daysBeforeMonth d.year d.month : Int) + (d.day : Int)

/-- days_until of app.py:82 / app_gsheets.py:141 with `today` explicit:
None on a missing date, else (d - today).days. -/
def days_until (today : Date) (d : Option Date) : Option Int :=
  match d with
  | none => none
  | some e => some (toOrdinal e - toOrdinal today)

/-- datetime.date ≤, i.e. lexicographic on (year, month, day). -/
def dateLe (a b : Date) : Bool :=
  decide (a.year < b.year)
    || (a.year == b.year
        && (decide (a.month < b.month)
            || (a.month == b.month && decide (a.day ≤ b.day))))

/-- The within_days mask of app_gsheets.py:180: not cancelled, days_left
non-null, 0 ≤ days_left ≤ within_days. -/
def activeInWindow (today : Date) (w : Int) (r : GRec) : Bool :=
  !r.cancelled
    && (match days_until today r.end_date with
        | none => false
        | some dl => decide (0 ≤ dl) && decide (dl ≤ w))

/-- The start-bound mask of app_gsheets.py:183: end_date non-null and
end_date ≥ start. -/
def endsOnOrAfter (sd : Date) (r : GRec) : Bool :=
  match r.end_date with
  | none => false
  | some ed => dateLe sd ed

/-- The end-bound mask of app_gsheets.py:186: end_date non-null and
end_date ≤ end. -/
def endsOnOrBefore (ed2 : Date) (r : GRec) : Bool :=
  match r.end_date with
  | none => false
  | some ed => dateLe ed ed2

/-- filter_by_expiry_window of app_gsheets.py:169 (app.py:101 is the same
without the cancelled conjunct): the three optional filters applied in
sequence. -/
def filter_by_expiry_window (today : Date) (df : List GRec)
    (within_days : Option Int) (start : Option Date) (fin : Option Date) : List GRec :=
  let t1 := match within_days with
    | none => df
    | some w => df.filter (activeInWindow today w)
  let t2 := match start with
    | none => t1
    | some sd => t1.filter (endsOnOrAfter sd)
  match fin with
  | none => t2
  | some ed => t2.filter (endsOnOrBefore ed)

/-- Sort-key component: 0 for a present end_date, 1 for a missing one
(na_position last). -/
def endFlag : Option Date → Int
  | none => 1
  | some _ => 0

/-- Sort-key component: year of the end_date, 0 when missing. -/
def endY : Option Date → Int
  | none => 0
  | some d => d.year

/-- Sort-key component: month of the end_date, 0 when missing. -/
def endM : Option Date → Int
  | none => 0
  | some d => (d.month : Int)

/-- Sort-key component: day of the end_date, 0 when missing. -/
def endD : Option Date → Int
  | none => 0
  | some d => (d.day : Int)

/-- Sort-key component: 0 for a present id, 1 for a missing one. -/
def idFlag : Option Int → Int
  | none => 1
  | some _ => 0

/-- Sort-key component: the id value, 0 when missing. -/
def idVal : Option Int → Int
  | none => 0
  | some v => v

/-- The full sort key of load_data's
sort_values(by=["end_date", "id"], ascending=[True, True]) (app.py:64 /
app_gsheets.py:114): end_date ascending with nulls last, then id ascending
with nulls last. -/
def keyOf (r : Rec) : List Int :=
  [endFlag r.end_date, endY r.end_date, endM r.end_date, endD r.end_date,
   idFlag r.id, idVal r.id]

/-- Lexicographic ≤ on equal-length integer lists. -/
def lexLe : List Int → List Int → Bool
  | [], _ => true
  | _ :: _, [] => true
  | x :: xs, y :: ys => decide (x < y) || (x == y && lexLe xs ys)

/-- The row order load_data sorts by. -/
def sortLe (a b : Rec) : Prop :=
  lexLe (keyOf a) (keyOf b) = true

instance : DecidableRel sortLe :=
  fun a b => inferInstanceAs (Decidable (lexLe (keyOf a) (keyOf b) = true))

/-- The ordering step of load_data (app.py:63): the loaded table sorted by
end_date then id, nulls last (a stable sort, as pandas' lexsort). -/
def load_sorted (df : List Rec) : List Rec :=
  List.insertionSort sortLe df

/-- One row of the bulk-edit save of app.py:302 (mask_need_end): recompute
end_date = calc_end_date(start_date, months) exactly when end_date is empty
and start_date and months are both present; otherwise the row is kept as
edited. -/
def bulk_recompute_row (r : Rec) : Rec :=
  match r.end_date, r.start_date, r.months with
  | none, some s, some m => { r with end_date := some (calc_end_date s m) }
  | _, _, _ => r

/-- The bulk-edit end_date pass over the whole edited table. -/
def bulk_recompute (df : List Rec) : List Rec :=
  df.map bulk_recompute_row

/-- The generic required-fields message of app.py:178. -/
def required_msg : String :=
  "กรุณากรอกข้อมูลที่มีเครื่องหมาย * ให้ครบถ้วนครับ"

/-- Add-form submit of app.py:176: the Python truthiness check
`not all([shop.strip(), contact.strip(), phone.strip(), start_date, months])`
(a blank string, a missing date and months == 0 are falsy); on failure the
stored table is unchanged and the one generic message is shown; on success
the new record (trimmed fields, next_id, calc_end_date) is appended and
saved.  Result: (stored table, error message if any). -/
def add_submit (df : List Rec) (shop contact phone : String)
    (start : Option Date) (months : Int) : List Rec × Option String :=
  if pyStrip shop = "" ∨ pyStrip contact = "" ∨ pyStrip phone = ""
      ∨ start.isNone ∨ months = 0 then
    (df, some required_msg)
  else
    match start with
    | some s =>
      (df ++ [⟨some (next_id (df.map Rec.id)), some (pyStrip shop), some (pyStrip contact),
              some (pyStrip phone), some s, some months, some (calc_end_date s months)⟩],
        none)
    | none => (df, some required_msg)

/-- The effect of the cancel-toggle loop of app_gsheets.py:350 on one stored
row: the edited (id, cancelled) pairs applied in order; a pair touches the
row iff the row's id equals the edited id. -/
def applyEditsRow (edits : List (Int × Bool)) (r : GRec) : GRec :=
  edits.foldl
    (fun acc e => if acc.id = some e.1 then { acc with cancelled := e.2 } else acc) r

/-- Cancel-toggle save of app_gsheets.py:347: for each edited pair in
order, merged.at[_id, "cancelled"] = bool(is_cancel) sets cancelled on every
stored row whose id equals _id; nothing else is written. -/
def apply_cancel_edits (df : List GRec) (edits : List (Int × Bool)) : List GRec :=
  edits.foldl
    (fun acc e =>
      acc.map (fun r => if r.id = some e.1 then { r with cancelled := e.2 } else r))
    df

/-- A record with cancelled cleared: two records agree on every field other
than cancelled iff their images under eraseCancelled are equal. -/
def eraseCancelled (r : GRec) : GRec :=
  { r with cancelled := false }

end LeaseMgr

namespace LeaseMgr

theorem daysInMonth_pos (y : Int) (m : Nat) : 1 ≤ daysInMonth y m := by
  unfold daysInMonth
  split
  · split <;> omega
  · split <;> omega

/-- C1: for every valid start date and positive integer months,
calc_end_date adds `months` calendar months: the month index advances by
exactly `months`, the day of month is preserved when it exists in the target
month and clamped to the last valid day otherwise, the result is a valid
date, and calc_end_date 2024-01-31 1 = 2024-02-29. -/
theorem C1_calc_end_date (s : Date) (m : Int) (hs : s.Valid) (hm : 1 ≤ m) :
    ((calc_end_date s m).year * 12 + ((calc_end_date s m).month : Int)
        = s.year * 12 + (s.month : Int) + m)
    ∧ (s.day ≤ daysInMonth (calc_end_date s m).year (calc_end_date s m).month →
        (calc_end_date s m).day = s.day)
    ∧ (daysInMonth (calc_end_date s m).year (calc_end_date s m).month < s.day →
        (calc_end_date s m).day
          = daysInMonth (calc_end_date s m).year (calc_end_date s m).month)
    ∧ (calc_end_date s m).Valid
    ∧ calc_end_date ⟨2024, 1, 31⟩ 1 = ⟨2024, 2, 29⟩ := by
  obtain ⟨hm1, hm2, hd1, hd2⟩ := hs
  have hE := Int.ediv_add_emod (s.year * 12 + (s.month : Int) - 1 + m) 12
  have h0 : 0 ≤ (s.year * 12 + (s.month : Int) - 1 + m) % 12 :=
    Int.emod_nonneg _ (by norm_num)
  have h12 : (s.year * 12 + (s.month : Int) - 1 + m) % 12 < 12 :=
    Int.emod_lt_of_pos _ (by norm_num)
  have hcast : (((s.year * 12 + (s.month : Int) - 1 + m) % 12).toNat : Int)
      = (s.year * 12 + (s.month : Int) - 1 + m) % 12 := Int.toNat_of_nonneg h0
  have hpos := daysInMonth_pos (calc_end_date s m).year (calc_end_date s m).month
  refine ⟨?_, ?_, ?_, ⟨?_, ?_, ?_, ?_⟩, by decide⟩
  · show ((s.year * 12 + (s.month : Int) - 1 + m) / 12) * 12
        + ((((s.year * 12 + (s.month : Int) - 1 + m) % 12).toNat + 1 : Nat) : Int)
        = s.year * 12 + (s.month : Int) + m
    push_cast
    omega
  · intro h
    show min s.day (daysInMonth (calc_end_date s m).year (calc_end_date s m).month) = s.day
    omega
  · intro h
    show min s.day (daysInMonth (calc_end_date s m).year (calc_end_date s m).month)
        = daysInMonth (calc_end_date s m).year (calc_end_date s m).month
    omega
  · show 1 ≤ ((s.year * 12 + (s.month : Int) - 1 + m) % 12).toNat + 1
    omega
  · show ((s.year * 12 + (s.month : Int) - 1 + m) % 12).toNat + 1 ≤ 12
    omega
  · show 1 ≤ min s.day (daysInMonth (calc_end_date s m).year (calc_end_date s m).month)
    omega
  · show min s.day (daysInMonth (calc_end_date s m).year (calc_end_date s m).month)
        ≤ daysInMonth (calc_end_date s m).year (calc_end_date s m).month
    omega

/-- Witness for C1 at start = 2024-01-31, months = 1. -/
theorem C1_calc_end_date_witness :
    (Date.mk 2024 1 31).Valid ∧ (1 : Int) ≤ 1
      ∧ calc_end_date ⟨2024, 1, 31⟩ 1 = ⟨2024, 2, 29⟩ :=
  ⟨by decide, by decide, (C1_calc_end_date ⟨2024, 1, 31⟩ 1 (by decide) (by decide)).2.2.2.2⟩

theorem foldl_max_zero (xs : List Int) (h : ∀ x ∈ xs, x = 0) :
    xs.foldl max 0 = 0 := by
  induction xs with
  | nil => rfl
  | cons x xs ih =>
    have hx : x = 0 := h x (List.mem_cons_self x xs)
    have : ∀ y ∈ xs, y = 0 := fun y hy => h y (List.mem_cons_of_mem x hy)
    simp [List.foldl_cons, hx, ih this]

theorem foldl_max_le (xs : List Int) (a : Int) : a ≤ xs.foldl max a := by
  induction xs generalizing a with
  | nil => exact le_refl a
  | cons x xs ih => exact le_trans (le_max_left a x) (ih (max a x))

theorem foldl_max_mem_le (xs : List Int) (a v : Int) (hv : v ∈ xs) :
    v ≤ xs.foldl max a := by
  induction xs generalizing a with
  | nil => cases hv
  | cons x xs ih =>
    rcases List.mem_cons.mp hv with h | h
    · exact le_trans (h ▸ le_max_right a x) (foldl_max_le xs (max a x))
    · exact ih (max a x) h

/-- C3: next_id returns 1 on an empty record set and 1 when no id is
parsable; otherwise it is (max of the ids, with missing/non-numeric ids
counting as 0) + 1, hence strictly above every parsable id; and the two
spec examples next_id [] = 1 and next_id [1, 5, 3] = 6 hold. -/
theorem C3_next_id : ∀ ids : List (Option Int),
    (ids = [] → next_id ids = 1)
    ∧ ((∀ o ∈ ids, o = none) → next_id ids = 1)
    ∧ (ids ≠ [] → next_id ids = listMax (ids.map (fun o => o.getD 0)) + 1)
    ∧ (∀ v : Int, some v ∈ ids → v + 1 ≤ next_id ids)
    ∧ next_id [] = 1
    ∧ next_id [some 1, some 5, some 3] = 6 := by
  intro ids
  refine ⟨?_, ?_, ?_, ?_, by decide, by decide⟩
  · intro h; subst h; rfl
  · intro h
    cases ids with
    | nil => rfl
    | cons o os =>
      have ho : o = none := h o (List.mem_cons_self o os)
      have hos : ∀ x ∈ os.map (fun o => o.getD 0), x = 0 := by
        intro x hx
        rcases List.mem_map.mp hx with ⟨y, hy, hxy⟩
        have hyn : y = none := h y (List.mem_cons_of_mem o hy)
        rw [hyn] at hxy
        exact hxy.symm
      have hmax : listMax ((o :: os).map (fun o => o.getD 0)) = 0 := by
        rw [List.map_cons, ho]
        show (os.map (fun o => o.getD 0)).foldl max ((none : Option Int).getD 0) = 0
        exact foldl_max_zero _ hos
      unfold next_id
      rw [if_neg (by simp), hmax]
      norm_num
  · intro h
    unfold next_id
    rw [if_neg (by simp [h])]
  · intro v hv
    have hne : ids ≠ [] := by rintro rfl; cases hv
    have hmem : v ∈ ids.map (fun o => o.getD 0) :=
      List.mem_map.mpr ⟨some v, hv, rfl⟩
    unfold next_id
    rw [if_neg (by simp [hne])]
    cases hmap : ids.map (fun o => o.getD 0) with
    | nil => rw [hmap] at hmem; cases hmem
    | cons x xs =>
      rw [hmap] at hmem
      show v + 1 ≤ xs.foldl max x + 1
      rcases List.mem_cons.mp hmem with h | h
      · subst h
        have := foldl_max_le xs v
        omega
      · have := foldl_max_mem_le xs x v h
        omega

/-- C2: next_contract_no ignores contract_no cells that do not match the
current YYYYMM bucket (appending such a cell leaves the result unchanged),
always renders bucket-(seq zero-padded to 3), and the two spec examples:
an empty table gives 202403-001, and existing 202403-001, 202403-002,
202402-005 give 202403-003 (the 202402 bucket is ignored). -/
theorem C2_next_contract_no :
    (∀ (col : List (Option String)) (v : Option String) (start : Date),
      matchSeq (yyyymmOf start) (v.getD "") = none →
        next_contract_no (col ++ [v]) start = next_contract_no col start)
    ∧ (∀ (col : List (Option String)) (start : Date),
        next_contract_no col start
          = yyyymmOf start ++ "-" ++ pad 3 (toString
              (let seqs := col.filterMap (fun v => matchSeq (yyyymmOf start) (v.getD ""))
               if seqs.isEmpty then 1 else listMaxNat seqs + 1)))
    ∧ next_contract_no [] ⟨2024, 3, 15⟩ = "202403-001"
    ∧ next_contract_no [some "202403-001", some "202403-002", some "202402-005"]
        ⟨2024, 3, 15⟩ = "202403-003" := by
  refine ⟨?_, fun col start => rfl, by decide, by decide⟩
  intro col v start h
  simp only [next_contract_no, List.filterMap_append, List.filterMap_cons, h,
    List.filterMap_nil, List.append_nil]

theorem style_status_some (d : Int) :
    style_status (some d) false
      = if d < 0 then "หมดอายุมาแล้ว " ++ toString (-d) ++ " วัน"
        else if d ≤ 15 then "⚠️ ใกล้หมดอายุ (≤15 วัน) - เหลือ " ++ toString d ++ " วัน"
        else if d ≤ 30 then "⏰ เตือนล่วงหน้า (≤30 วัน) - เหลือ " ++ toString d ++ " วัน"
        else "เหลือ " ++ toString d ++ " วัน" := rfl

/-- C4: the classifier sends a cancelled record to the cancelled label
whatever days_left is (cancelled dominates); a null days_left to the
unknown label; a negative days_left to the expired label with N = -days_left;
0 ≤ days_left ≤ 15 to the near-expiry (≤15 days) label; 16 ≤ days_left ≤ 30
to the advance-warning (≤30 days) label; days_left > 30 to the plain
days-left label. -/
theorem C4_style_status : ∀ d : Int,
    (∀ dl : Option Int, style_status dl true = "❌ ยกเลิกแล้ว")
    ∧ style_status none false = "-"
    ∧ (d < 0 → style_status (some d) false = "หมดอายุมาแล้ว " ++ toString (-d) ++ " วัน")
    ∧ (0 ≤ d → d ≤ 15 → style_status (some d) false
        = "⚠️ ใกล้หมดอายุ (≤15 วัน) - เหลือ " ++ toString d ++ " วัน")
    ∧ (16 ≤ d → d ≤ 30 → style_status (some d) false
        = "⏰ เตือนล่วงหน้า (≤30 วัน) - เหลือ " ++ toString d ++ " วัน")
    ∧ (30 < d → style_status (some d) false = "เหลือ " ++ toString d ++ " วัน") := by
  intro d
  refine ⟨fun dl => rfl, rfl, ?_, ?_, ?_, ?_⟩
  · intro h
    rw [style_status_some, if_pos h]
  · intro h1 h2
    rw [style_status_some, if_neg (by omega), if_pos h2]
  · intro h1 h2
    rw [style_status_some, if_neg (by omega), if_neg (by omega), if_pos h2]
  · intro h
    rw [style_status_some, if_neg (by omega), if_neg (by omega), if_neg (by omega)]

/-- C5: with within_days supplied, the enhanced expiry-window filter keeps
exactly the records that are in the table, not cancelled, and whose
days_left is non-null in [0, within_days]; the optional start / end bounds
conjoin with it; and the free-text filter never excludes cancelled records —
its mask reads only the text columns, so flipping cancelled never changes
it. -/
theorem C5_expiry_window :
    ∀ (today : Date) (df : List GRec) (w : Int) (s e : Option Date) (r : GRec)
      (q : String) (b : Bool),
    (activeInWindow today w r = true ↔
      r.cancelled = false
        ∧ ∃ dl, days_until today r.end_date = some dl ∧ 0 ≤ dl ∧ dl ≤ w)
    ∧ (r ∈ filter_by_expiry_window today df (some w) s e ↔
        r ∈ df ∧ activeInWindow today w r = true
          ∧ (∀ sd, s = some sd → endsOnOrAfter sd r = true)
          ∧ (∀ ed, e = some ed → endsOnOrBefore ed r = true))
    ∧ (q ≠ "" → (r ∈ filter_by_query_g df q ↔ r ∈ df ∧ gMatches (pyStrip q) r = true))
    ∧ (filter_by_query_g df "" = df)
    ∧ (gMatches q { r with cancelled := b } = gMatches q r)
    ∧ (r ∈ filter_by_expiry_window today df (some w) s e → r.cancelled = false) := by
  intro today df w s e r q b
  have hchar : activeInWindow today w r = true ↔
      r.cancelled = false
        ∧ ∃ dl, days_until today r.end_date = some dl ∧ 0 ≤ dl ∧ dl ≤ w := by
    cases he : r.end_date with
    | none =>
      simp [activeInWindow, days_until, he]
    | some ed =>
      simp [activeInWindow, days_until, he, Bool.and_eq_true, decide_eq_true_eq,
        Bool.not_eq_true']
  have hmem : r ∈ filter_by_expiry_window today df (some w) s e ↔
      r ∈ df ∧ activeInWindow today w r = true
        ∧ (∀ sd, s = some sd → endsOnOrAfter sd r = true)
        ∧ (∀ ed, e = some ed → endsOnOrBefore ed r = true) := by
    cases s <;> cases e <;>
      simp [filter_by_expiry_window, List.mem_filter] <;> tauto
  refine ⟨hchar, hmem, ?_, ?_, rfl, ?_⟩
  · intro hq
    simp [filter_by_query_g, hq, List.mem_filter]
  · rfl
  · intro hr
    have := (hmem.mp hr).2.1
    exact (hchar.mp this).1

theorem rsearch_nil : ∀ s : List Char, rsearch [] s = true
  | [] => rfl
  | _ :: _ => rfl

theorem rmatchHere_lit : ∀ p s : List Char,
    rmatchHere (p.map RTok.lit) s = litHere p s
  | [], _ => rfl
  | _ :: _, [] => rfl
  | p :: ps, c :: cs => by
    simp only [List.map_cons, rmatchHere, litHere, tokMatch]
    rw [rmatchHere_lit ps cs]

theorem rsearch_lit : ∀ p s : List Char, rsearch (p.map RTok.lit) s = isSubstr p s
  | p, [] => rmatchHere_lit p []
  | p, c :: cs => by
    simp only [rsearch, isSubstr]
    rw [rmatchHere_lit, rsearch_lit p cs]

theorem mapTok_nodot : ∀ cs : List Char, (∀ c ∈ cs, c ≠ '.') →
    cs.map (fun c => if c = '.' then RTok.dot else RTok.lit c) = cs.map RTok.lit
  | [], _ => rfl
  | c :: cs, h => by
    simp only [List.map_cons]
    rw [if_neg (h c (List.mem_cons_self c cs)),
      mapTok_nodot cs (fun c' hc' => h c' (List.mem_cons_of_mem c hc'))]

theorem compileQ_nodot (q : String) (h : ∀ c ∈ q.toList, c ≠ '.') :
    compileQ q = q.toList.map RTok.lit :=
  mapTok_nodot q.toList h

/-- C6 counterexample: pandas str.contains treats the query as a regular
expression, so the query "a.c" keeps the record whose shop_name is "abc"
even though "a.c" is not a (case-insensitive) substring of shop_name,
contact_name or phone — the claim's substring reading is false on this
input. -/
theorem C6_counterexample :
    filter_by_query
        [⟨some 1, some "abc", some "x", some "0812345678", none, none, none⟩] "a.c"
      = [⟨some 1, some "abc", some "x", some "0812345678", none, none, none⟩]
    ∧ isSubstr "a.c".toList (lowerChars "abc") = false
    ∧ isSubstr "a.c".toList (lowerChars "x") = false
    ∧ isSubstr "a.c".toList (lowerChars "0812345678") = false := by
  refine ⟨?_, ?_, ?_, ?_⟩ <;> decide

/-- C6 amended: filter_by_query strips and lowercases q and hands it to
str.contains, which reads it as a regular expression, not a literal
substring.  An empty and a blank q return the table unchanged; on the
embedded fragment (each pattern character is '.' or a non-metacharacter)
membership is exactly the regex mask over shop_name, contact_name and
phone; for a pattern free of every regex metacharacter the mask is exactly
case-insensitive substring search; a missing field is read as the empty
string. -/
theorem C6_query_amended :
    ∀ (df : List Rec) (q : String) (r : Rec) (p : List RTok),
    (q = "" → filter_by_query df q = df)
    ∧ (strLower (pyStrip q) = "" → filter_by_query df q = df)
    ∧ ((∀ c ∈ (strLower (pyStrip q)).toList, c = '.' ∨ isRegexMeta c = false) →
        q ≠ "" →
        (r ∈ filter_by_query df q ↔
          r ∈ df ∧ recMatches (compileQ (strLower (pyStrip q))) r = true))
    ∧ ((∀ c ∈ (strLower (pyStrip q)).toList, isRegexMeta c = false) → q ≠ "" →
        (r ∈ filter_by_query df q ↔
          r ∈ df
            ∧ (isSubstr (strLower (pyStrip q)).toList (lowerChars (r.shop_name.getD "")) = true
              ∨ isSubstr (strLower (pyStrip q)).toList (lowerChars (r.contact_name.getD "")) = true
              ∨ isSubstr (strLower (pyStrip q)).toList (lowerChars (r.phone.getD "")) = true)))
    ∧ fieldMatch p none = fieldMatch p (some "") := by
  intro df q r p
  have hmem : q ≠ "" → (r ∈ filter_by_query df q ↔
      r ∈ df ∧ recMatches (compileQ (strLower (pyStrip q))) r = true) := by
    intro hq
    simp [filter_by_query, hq, List.mem_filter]
  refine ⟨?_, ?_, fun _ hq => hmem hq, ?_, rfl⟩
  · intro h
    simp [filter_by_query, h]
  · intro hb
    by_cases hq : q = ""
    · simp [filter_by_query, hq]
    · unfold filter_by_query
      rw [if_neg hq]
      apply List.filter_eq_self.mpr
      intro a _
      have hnil : compileQ (strLower (pyStrip q)) = [] := by rw [hb]; rfl
      simp [recMatches, fieldMatch, hnil, rsearch_nil]
  · intro hnm hq
    have hnd : ∀ c ∈ (strLower (pyStrip q)).toList, c ≠ '.' := by
      intro c hc hdot
      have := hnm c hc
      rw [hdot] at this
      exact absurd this (by decide)
    rw [hmem hq, compileQ_nodot _ hnd]
    simp only [recMatches, fieldMatch, rsearch_lit, Bool.or_eq_true]
    tauto

theorem lexLe_total : ∀ xs ys : List Int, lexLe xs ys = true ∨ lexLe ys xs = true
  | [], _ => Or.inl rfl
  | _ :: _, [] => Or.inr rfl
  | x :: xs, y :: ys => by
    rcases lt_trichotomy x y with h | h | h
    · left
      simp only [lexLe, Bool.or_eq_true, decide_eq_true_eq]
      exact Or.inl h
    · subst h
      rcases lexLe_total xs ys with ih | ih
      · left
        simp [lexLe, ih]
      · right
        simp [lexLe, ih]
    · right
      simp only [lexLe, Bool.or_eq_true, decide_eq_true_eq]
      exact Or.inl h

theorem lexLe_trans : ∀ xs ys zs : List Int, xs.length = ys.length →
    ys.length = zs.length →
    lexLe xs ys = true → lexLe ys zs = true → lexLe xs zs = true := by
  intro xs
  induction xs with
  | nil => intro ys zs _ _ _ _; rfl
  | cons x xs ih =>
    intro ys zs h1 h2 hxy hyz
    cases ys with
    | nil => simp at h1
    | cons y ys =>
      cases zs with
      | nil => simp at h2
      | cons z zs =>
        simp only [lexLe, Bool.or_eq_true, Bool.and_eq_true, decide_eq_true_eq,
          beq_iff_eq] at hxy hyz ⊢
        rcases hxy with hlt | ⟨hxe, hxy⟩ <;> rcases hyz with hlt2 | ⟨hye, hyz⟩
        · left; omega
        · left; omega
        · left; omega
        · right
          exact ⟨by omega, ih ys zs (by simpa using h1) (by simpa using h2) hxy hyz⟩

/-- C7: the load-time ordering step sorts the table by the key (end_date
ascending with a missing end_date last, then id ascending), returns a
permutation of the loaded rows, a row with an end_date always precedes one
without, rows with equal end_dates order by id, and the spec scenario: two
rows both ending 2024-05-01 with ids 7 and 3 come back with id 3 first. -/
theorem C7_load_order : ∀ df : List Rec,
    List.Sorted sortLe (load_sorted df)
    ∧ List.Perm (load_sorted df) df
    ∧ (∀ (a b : Rec) (da : Date), a.end_date = some da → b.end_date = none →
        sortLe a b ∧ ¬ sortLe b a)
    ∧ (∀ (a b : Rec) (ia ib : Int), a.end_date = b.end_date →
        a.id = some ia → b.id = some ib → (sortLe a b ↔ ia ≤ ib))
    ∧ load_sorted
        [⟨some 7, some "A", some "B", some "C", some ⟨2024, 1, 1⟩, some 4, some ⟨2024, 5, 1⟩⟩,
         ⟨some 3, some "D", some "E", some "F", some ⟨2024, 1, 1⟩, some 4, some ⟨2024, 5, 1⟩⟩]
      = [⟨some 3, some "D", some "E", some "F", some ⟨2024, 1, 1⟩, some 4, some ⟨2024, 5, 1⟩⟩,
         ⟨some 7, some "A", some "B", some "C", some ⟨2024, 1, 1⟩, some 4, some ⟨2024, 5, 1⟩⟩] := by
  haveI : IsTotal Rec sortLe := ⟨fun a b => lexLe_total (keyOf a) (keyOf b)⟩
  haveI : IsTrans Rec sortLe :=
    ⟨fun a b c hab hbc => lexLe_trans (keyOf a) (keyOf b) (keyOf c) rfl rfl hab hbc⟩
  intro df
  refine ⟨List.sorted_insertionSort sortLe df, List.perm_insertionSort sortLe df,
    ?_, ?_, by decide⟩
  · intro a b da ha hb
    constructor
    · simp [sortLe, keyOf, ha, hb, endFlag, lexLe]
    · simp [sortLe, keyOf, ha, hb, endFlag, endY, endM, endD, lexLe]
  · intro a b ia ib hab ha hb
    simp [sortLe, keyOf, hab, ha, hb, idFlag, idVal, lexLe]
    omega

/-- C8: in the bulk-edit save, end_date is recomputed as
calc_end_date(start_date, months) exactly when it is empty with start_date
and months present; a populated end_date row is returned entirely
unchanged — the user-supplied value wins even if inconsistent with
start_date + months. -/
theorem C8_bulk_edit : ∀ (df : List Rec) (r : Rec),
    bulk_recompute df = df.map bulk_recompute_row
    ∧ (∀ e, r.end_date = some e → bulk_recompute_row r = r)
    ∧ (∀ s m, r.end_date = none → r.start_date = some s → r.months = some m →
        bulk_recompute_row r = { r with end_date := some (calc_end_date s m) })
    ∧ (r.end_date = none → r.start_date = none → bulk_recompute_row r = r)
    ∧ (r.end_date = none → r.months = none → bulk_recompute_row r = r) := by
  intro df r
  refine ⟨rfl, ?_, ?_, ?_, ?_⟩
  · intro e he
    unfold bulk_recompute_row
    rw [he]
  · intro s m he hs hm
    unfold bulk_recompute_row
    rw [he, hs, hm]
  · intro he hs
    unfold bulk_recompute_row
    rw [he, hs]
  · intro he hm
    unfold bulk_recompute_row
    rw [he, hm]
    cases r.start_date <;> rfl

/-- C9 counterexample: the add-form validation failure is one fixed generic
message — a submission missing shop_name and one missing phone produce the
identical failure, so the failure does not identify the offending field; and
a negative months value (unreachable through the widget, whose minimum is 1)
is not rejected at all. -/
theorem C9_counterexample :
    add_submit [] "" "A" "0812345678" (some ⟨2024, 3, 15⟩) 12 = ([], some required_msg)
    ∧ add_submit [] "Shop" "A" "" (some ⟨2024, 3, 15⟩) 12 = ([], some required_msg)
    ∧ (add_submit [] "Shop" "A" "0812345678" (some ⟨2024, 3, 15⟩) (-3)).2 = none := by
  refine ⟨?_, ?_, ?_⟩ <;> decide

/-- C9 amended: on any input failing the required-field truthiness check
(a blank shop/contact/phone after stripping, a missing start date, or
months = 0) the add flow fails with the one generic labeled validation
message — which does not identify the specific offending field — and
whenever a failure message is reported the stored record set is unchanged;
the failure is a returned value, never a raised error. -/
theorem C9_validation_amended :
    ∀ (df : List Rec) (shop contact phone : String) (start : Option Date) (months : Int),
    ((pyStrip shop = "" ∨ pyStrip contact = "" ∨ pyStrip phone = ""
        ∨ start = none ∨ months = 0) →
      add_submit df shop contact phone start months = (df, some required_msg))
    ∧ (∀ msg, (add_submit df shop contact phone start months).2 = some msg →
        (add_submit df shop contact phone start months).1 = df ∧ msg = required_msg) := by
  intro df shop contact phone start months
  constructor
  · intro h
    unfold add_submit
    rw [if_pos]
    rcases h with h | h | h | h | h
    · exact Or.inl h
    · exact Or.inr (Or.inl h)
    · exact Or.inr (Or.inr (Or.inl h))
    · exact Or.inr (Or.inr (Or.inr (Or.inl (by simp [h]))))
    · exact Or.inr (Or.inr (Or.inr (Or.inr h)))
  · intro msg hmsg
    unfold add_submit at hmsg ⊢
    by_cases hc : pyStrip shop = "" ∨ pyStrip contact = "" ∨ pyStrip phone = ""
        ∨ start.isNone ∨ months = 0
    · rw [if_pos hc] at hmsg ⊢
      exact ⟨rfl, by simpa using hmsg.symm⟩
    · rw [if_neg hc] at hmsg ⊢
      cases start with
      | some s => simp at hmsg
      | none => exact ⟨rfl, by simpa using hmsg.symm⟩

theorem eraseCancelled_applyEditsRow :
    ∀ (edits : List (Int × Bool)) (r : GRec),
    eraseCancelled (applyEditsRow edits r) = eraseCancelled r
  | [], _ => rfl
  | e :: es, r => by
    show eraseCancelled
        (applyEditsRow es (if r.id = some e.1 then { r with cancelled := e.2 } else r))
      = eraseCancelled r
    rw [eraseCancelled_applyEditsRow es]
    split <;> rfl

theorem applyEditsRow_not_mem :
    ∀ (edits : List (Int × Bool)) (r : GRec),
    (∀ e ∈ edits, r.id ≠ some e.1) → applyEditsRow edits r = r
  | [], _, _ => rfl
  | e :: es, r, h => by
    show applyEditsRow es (if r.id = some e.1 then { r with cancelled := e.2 } else r) = r
    rw [if_neg (h e (List.mem_cons_self e es))]
    exact applyEditsRow_not_mem es r (fun e' he' => h e' (List.mem_cons_of_mem e he'))

theorem map_applyEditsRow_nil : ∀ df : List GRec, df.map (applyEditsRow []) = df
  | [] => rfl
  | r :: rs => by
    show applyEditsRow [] r :: rs.map (applyEditsRow []) = r :: rs
    rw [map_applyEditsRow_nil rs]
    rfl

theorem apply_cancel_edits_map :
    ∀ (edits : List (Int × Bool)) (df : List GRec),
    apply_cancel_edits df edits = df.map (applyEditsRow edits)
  | [], df => by
    show df = df.map (applyEditsRow [])
    rw [map_applyEditsRow_nil df]
  | e :: es, df => by
    show apply_cancel_edits
        (df.map (fun r => if r.id = some e.1 then { r with cancelled := e.2 } else r)) es
      = df.map (applyEditsRow (e :: es))
    rw [apply_cancel_edits_map es, List.map_map]
    rfl

/-- C10: the cancel-toggle save acts rowwise (the table maps through
applyEditsRow), preserves the table's length, changes no field other than
cancelled in any row (the rows agree after clearing cancelled), and leaves a
row whose id matches no edited id entirely unchanged. -/
theorem C10_cancel_toggle : ∀ (df : List GRec) (edits : List (Int × Bool)),
    apply_cancel_edits df edits = df.map (applyEditsRow edits)
    ∧ (apply_cancel_edits df edits).length = df.length
    ∧ (∀ r : GRec, eraseCancelled (applyEditsRow edits r) = eraseCancelled r)
    ∧ (∀ r : GRec, (∀ e ∈ edits, r.id ≠ some e.1) → applyEditsRow edits r = r) := by
  intro df edits
  refine ⟨apply_cancel_edits_map edits df, ?_,
    fun r => eraseCancelled_applyEditsRow edits r,
    fun r h => applyEditsRow_not_mem edits r h⟩
  rw [apply_cancel_edits_map edits df]
  exact List.length_map df (applyEditsRow edits)

end LeaseMgr
